import Mathlib

/-!
Verification development for the earthquake data-warehouse pipeline
(`Earthquake-Data-Pipeline.py`).  The pipeline's algorithmic pieces are
embedded shallowly:

* `parse_place` — the free-text location parser built on the regex
  `(?:(?P<distance>\d+\s*km)\s*)? (?:(?P<direction>[NSEW]\x7b1,3\x7d)\s*of\s*)?
   (?P<nearest>[^,]+?) (?:,\s*(?P<state>[A-Za-z ]+))? $`
  compiled with IGNORECASE | VERBOSE and applied with `pattern.match(txt.strip())`.
  Backtracking of the regex engine is embedded as priority-ordered candidate
  lists (first success wins).  The Unicode classes `\d`, `\s` and the
  case-folding of IGNORECASE are restricted to their ASCII parts, which is the
  alphabet the pipeline's feed data and all the claims live in.
* the static lookup tables (`state_mapping`, `us_regions`, the US state and
  territory sets) and the row-level semantics of `clean_and_transform_data`,
  `expand_state_name`, `get_country_continent` and the region assignment of
  `add_regions_and_finalize`;
* the spatial-join semantics of `add_county_data`
  (`gpd.sjoin(..., how="left", predicate="intersects")`);
* the monthly fetch of `fetch_month_data` (non-200 handling).
-/

/-- ASCII whitespace, the ASCII part of Python's `\s` class and of
`str.strip()`'s default strip set. -/
def isWS (c : Char) : Bool :=
  c == ' ' || c == '\t' || c == '\n' || c == '\r' || c == '\x0b' || c == '\x0c'

/-- Characters matched by `[NSEW]` under IGNORECASE (ASCII part). -/
def isNSEWChar (c : Char) : Bool :=
  let l := c.toLower
  l == 'n' || l == 's' || l == 'e' || l == 'w'

/-- Characters matched by the class `[A-Za-z ]` of the state group. -/
def isStateChar (c : Char) : Bool :=
  c.isAlpha || c == ' '

/-- Python `str.strip()` on a character list: drop ASCII whitespace from both
ends. -/
def stripList (l : List Char) : List Char :=
  (((l.dropWhile isWS).reverse.dropWhile isWS)).reverse

/-- Candidates produced by the optional group
`(?:(?P<distance>\d+\s*km)\s*)?` at the start of `s`, in the order the
backtracking engine tries them: if a distance token `\d+\s*km` is recognized,
first the alternatives where the trailing `\s*` consumes from the maximal run
of whitespace down to none (greedy star), and last the alternative where the
whole optional group is skipped.  Each candidate is the captured distance
(if the group participated) together with the remaining input.  The inner
`\d+` and `\s*` need no backtracking alternatives: digits, whitespace and the
letter `k` are pairwise disjoint character classes, so only the maximal-munch
reading can succeed. -/
def g1Candidates (s : List Char) : List (Option (List Char) × List Char) :=
  let ds := s.takeWhile Char.isDigit
  if ds.isEmpty then [(none, s)]
  else
    let r1 := s.drop ds.length
    let w1 := r1.takeWhile isWS
    match r1.drop w1.length with
    | c1 :: c2 :: r3 =>
      if c1.toLower == 'k' && c2.toLower == 'm' then
        let cap := ds ++ w1 ++ [c1, c2]
        let w2 := (r3.takeWhile isWS).length
        ((List.range (w2 + 1)).map (fun i => (some cap, r3.drop (w2 - i)))) ++ [(none, s)]
      else [(none, s)]
    | _ => [(none, s)]

/-- Candidates produced by the optional group
`(?:(?P<direction>[NSEW]\x7b1,3\x7d)\s*of\s*)?` at the start of `s`, in
backtracking order: the greedy counted repetition tries the longest run of
compass characters first (capped at 3), the `\s*` before `of` is forced to be
maximal (whitespace and `o` are disjoint), and the trailing `\s*` enumerates
from maximal consumption down to none; skipping the whole group comes last. -/
def g2Candidates (s : List Char) : List (Option (List Char) × List Char) :=
  let run := min 3 (s.takeWhile isNSEWChar).length
  let taken := (List.range run).flatMap (fun i =>
    let n := run - i
    let dir := s.take n
    let r1 := s.drop n
    let w1 := r1.takeWhile isWS
    match r1.drop w1.length with
    | c1 :: c2 :: r3 =>
      if c1.toLower == 'o' && c2.toLower == 'f' then
        let w2 := (r3.takeWhile isWS).length
        (List.range (w2 + 1)).map (fun j => (some dir, r3.drop (w2 - j)))
      else []
    | _ => [])
  taken ++ [(none, s)]

/-- Matching of `\s*(?P<state>[A-Za-z ]+)$` against the whole of `t` (the text
after the comma of the state group); returns the state capture on success.
The greedy `\s*` first takes the maximal whitespace run; the remainder must
then be a nonempty string over `[A-Za-z ]` reaching the end.  When the
remainder is empty (i.e. `t` is all whitespace), the star backtracks one
character at a time, so the first success hands exactly one trailing space to
the `[A-Za-z ]+` group; any other whitespace character cannot be handed over
(only the space is in the class). -/
def stateMatchFn (t : List Char) : Option (List Char) :=
  let u := t.dropWhile isWS
  if u.isEmpty then
    match t.getLast? with
    | some ' ' => some [' ']
    | _ => none
  else if u.all isStateChar then some u else none

/-- Matching of `(?P<nearest>[^,]+?)(?:,\s*(?P<state>[A-Za-z ]+))?$` against
the whole of `r`; returns (nearest capture, state capture).  The lazy
`[^,]+?` cannot cross a comma, and before the first comma neither the state
alternative (which needs a comma right after the capture) nor the bare `$`
can fire, so the capture necessarily extends exactly to the first comma when
one exists, and to the end of the input otherwise; in either case it must be
nonempty. -/
def nearestStateStage (r : List Char) : Option (List Char × Option (List Char)) :=
  let pre := r.takeWhile (fun c => c != ',')
  match r.drop pre.length with
  | [] => if pre.isEmpty then none else some (pre, none)
  | _ :: t =>
    if pre.isEmpty then none
    else
      match stateMatchFn t with
      | some st => some (pre, some st)
      | none => none

/-- The captures of the groups of a successful match of the `parse_place`
pattern (the `nearest` group is structurally mandatory in the pattern). -/
structure MatchGroups where
  distance : Option (List Char)
  direction : Option (List Char)
  nearest : List Char
  state : Option (List Char)
deriving DecidableEq, Repr

/-- Full anchored match of the `parse_place` pattern against `s`
(`pattern.match` on the stripped text): the first distance-group candidate,
direction-group candidate and nearest/state parse — in backtracking priority
order — that together consume the whole input. -/
def parseMatch (s : List Char) : Option MatchGroups :=
  (g1Candidates s).findSome? (fun p =>
    (g2Candidates p.2).findSome? (fun q =>
      (nearestStateStage q.2).map (fun ns =>
        { distance := p.1, direction := q.1, nearest := ns.1, state := ns.2 })))

/-- The dictionary returned by `parse_place`: keys `distance`, `direction`,
`nearest`, `state`; `nearest` is always a string, the other three may be
absent (`None`). -/
structure ParsedPlace where
  distance : Option String
  direction : Option String
  nearest : String
  state : Option String
deriving DecidableEq, Repr

/-- `parse_place(txt)`: match the pattern against `txt.strip()`; on failure
fall back to the dictionary with `nearest` equal to the original (untrimmed)
`txt` and all other fields `None`; on success return the captures, with the
`nearest` capture stripped (`m.group("nearest").strip()`) and the other
captures verbatim. -/
def parse_place (txt : String) : ParsedPlace :=
  match parseMatch (stripList txt.data) with
  | none => { distance := none, direction := none, nearest := txt, state := none }
  | some g =>
    { distance := g.distance.map (fun l => String.mk l)
      direction := g.direction.map (fun l => String.mk l)
      nearest := String.mk (stripList g.nearest)
      state := g.state.map (fun l => String.mk l) }


/-- The `us_regions` table of the pipeline constructor: the four fixed region
buckets with their state lists, in source order. -/
def us_regions : List (String × List String) :=
  [("Northeast",
    ["Connecticut", "Massachusetts", "Maine", "New Hampshire",
     "Rhode Island", "Vermont", "New Jersey", "New York", "Pennsylvania"]),
   ("Midwest",
    ["Illinois", "Indiana", "Iowa", "Kansas", "Michigan", "Minnesota",
     "Missouri", "Nebraska", "North Dakota", "Ohio", "South Dakota", "Wisconsin"]),
   ("South",
    ["Alabama", "Arkansas", "Delaware", "Florida", "Georgia", "Kentucky",
     "Louisiana", "Maryland", "Mississippi", "North Carolina", "Oklahoma",
     "South Carolina", "Tennessee", "Texas", "Virginia", "West Virginia"]),
   ("West",
    ["Alaska", "Arizona", "California", "Colorado", "Hawaii", "Idaho",
     "Montana", "Nevada", "New Mexico", "Oregon", "Utah", "Washington", "Wyoming"])]

/-- The `state_mapping` dictionary: two-letter abbreviation to full state
name, in source order. -/
def state_mapping : List (String × String) :=
  [("CA", "California"), ("NV", "Nevada"), ("OR", "Oregon"), ("AK", "Alaska"),
   ("AZ", "Arizona"), ("AR", "Arkansas"), ("CO", "Colorado"), ("CT", "Connecticut"),
   ("DE", "Delaware"), ("FL", "Florida"), ("GA", "Georgia"), ("HI", "Hawaii"),
   ("ID", "Idaho"), ("IL", "Illinois"), ("IN", "Indiana"), ("IA", "Iowa"),
   ("KS", "Kansas"), ("KY", "Kentucky"), ("LA", "Louisiana"), ("ME", "Maine"),
   ("MD", "Maryland"), ("MA", "Massachusetts"), ("MI", "Michigan"), ("MN", "Minnesota"),
   ("MS", "Mississippi"), ("MO", "Missouri"), ("MT", "Montana"), ("NE", "Nebraska"),
   ("NH", "New Hampshire"), ("NJ", "New Jersey"), ("NM", "New Mexico"), ("NY", "New York"),
   ("NC", "North Carolina"), ("ND", "North Dakota"), ("OH", "Ohio"), ("OK", "Oklahoma"),
   ("PA", "Pennsylvania"), ("RI", "Rhode Island"), ("SC", "South Carolina"),
   ("SD", "South Dakota"), ("TN", "Tennessee"), ("TX", "Texas"), ("UT", "Utah"),
   ("VT", "Vermont"), ("VA", "Virginia"), ("WA", "Washington"), ("WV", "West Virginia"),
   ("WI", "Wisconsin"), ("WY", "Wyoming")]

/-- Python `str.strip()` at the `String` level. -/
def stripString (s : String) : String :=
  String.mk (stripList s.data)

/-- `expand_state_name(state)`: `NaN` (absent) passes through; otherwise the
state is stripped and looked up in `state_mapping`, defaulting to the
stripped value itself. -/
def expand_state_name : Option String → Option String
  | none => none
  | some s =>
    let state_clean := stripString s
    some ((state_mapping.lookup state_clean).getD state_clean)

/-- The `us_states` set literal of `get_country_continent`, in source order
(43 states: Ohio, Iowa, Michigan, Delaware, Rhode Island, Vermont and
North Dakota are not listed in the source). -/
def us_states : List String :=
  ["California", "Alaska", "Hawaii", "Texas", "Washington", "Montana",
   "New Mexico", "Utah", "Idaho", "Oregon", "Wyoming", "Colorado",
   "New Jersey", "Tennessee", "Missouri", "Arkansas", "Arizona",
   "Kansas", "Georgia", "Maine", "South Carolina", "Nevada",
   "North Carolina", "New York", "Louisiana", "Connecticut",
   "Illinois", "Oklahoma", "Kentucky", "New Hampshire", "Virginia",
   "Nebraska", "South Dakota", "Minnesota", "Alabama", "Massachusetts",
   "Pennsylvania", "Maryland", "West Virginia", "Mississippi",
   "Wisconsin", "Florida", "Indiana"]

/-- The `us_territories` set literal of `get_country_continent`. -/
def us_territories : List String :=
  ["Puerto Rico", "Guam", "Northern Mariana Islands", "American Samoa"]

/-- `get_country_continent(state)`: absent state gives `("Unknown","Unknown")`;
otherwise the stripped state is tested against the US state and territory
sets. -/
def get_country_continent : Option String → String × String
  | none => ("Unknown", "Unknown")
  | some s =>
    let state_clean := stripString s
    if us_states.contains state_clean || us_territories.contains state_clean then
      ("United States", "North America")
    else
      ("Unknown", "Unknown")

/-- The reverse map state-to-region built by `add_regions_and_finalize`
(lines 317-320): one entry per state of each bucket.  Python dict assignment
would let a later duplicate overwrite an earlier one; the four bucket lists
have pairwise distinct states (a fact recorded in
`state_to_region_keys_nodup`), so association-list lookup agrees with the
dict. -/
def state_to_region : List (String × String) :=
  us_regions.flatMap (fun p => p.2.map (fun st => (st, p.1)))

/-- Row-level semantics of `df['region'] = df['state'].map(state_to_region)`
followed by `df['region'].fillna('Non-US')`: an absent state, like a state
that is in no bucket, becomes `"Non-US"`. -/
def region_of (state : Option String) : String :=
  match state with
  | none => "Non-US"
  | some s => (state_to_region.lookup s).getD "Non-US"

/-- A raw feed record as seen by `clean_and_transform_data`, reduced to the
field the claims are about.  The other feed columns (time, coordinates,
magnitude, ...) are orthogonal to the claims: the first `df.dropna()`
(line 193) only removes records with missing values in them, and they are
copied through unchanged afterwards, so the records modelled here are those
that survive line 193. -/
structure RawRecord where
  place : String
deriving DecidableEq, Repr

/-- A row emitted by `clean_and_transform_data`: the parsed place fields
(renamed as in the source) plus the derived state, country and continent.
All fields are plain strings — a row reaches the output only with every one
of them present. -/
structure CleanRecord where
  offset_distance : String
  offset_direction : String
  nearest_locality : String
  state : String
  country : String
  continent : String
deriving DecidableEq, Repr

/-- Row-level semantics of `clean_and_transform_data` after line 193: parse
the place (line 197); drop the row if any parsed field is missing
(`df.dropna()`, line 201); expand the state abbreviation (line 205); attach
country and continent (lines 208-210); keep only rows with
`continent != 'Unknown'` and `country == 'United States'` (lines 224-225).
`none` means the row is dropped before the transformed file is written. -/
def cleanTransformRecord (r : RawRecord) : Option CleanRecord :=
  let p := parse_place r.place
  match p.distance, p.direction, p.state with
  | some d, some dir, some st0 =>
    match expand_state_name (some st0) with
    | some st =>
      let cc := get_country_continent (some st)
      if cc.2 != "Unknown" && cc.1 == "United States" then
        some { offset_distance := d, offset_direction := dir,
               nearest_locality := p.nearest, state := st,
               country := cc.1, continent := cc.2 }
      else none
    | none => none
  | _, _, _ => none

/-- An event's point geometry (`Point(longitude, latitude)`).  Coordinates are
modelled over `Int`; the claims about the spatial join are about its row
structure, not about geodesy. -/
structure GeoPoint where
  x : Int
  y : Int
deriving DecidableEq, Repr

/-- A county of the reference shapefile: its `NAME` attribute and its
boundary polygon, modelled as an axis-aligned rectangle (a polygon whose
containment test, boundary included, is decidable). -/
structure CountyShape where
  name : String
  xmin : Int
  xmax : Int
  ymin : Int
  ymax : Int
deriving DecidableEq, Repr

/-- The `intersects` predicate of the spatial join: true also for points
exactly on the polygon boundary (shapely's `intersects` includes the
boundary). -/
def intersectsPt (p : GeoPoint) (c : CountyShape) : Bool :=
  c.xmin ≤ p.x && p.x ≤ c.xmax && c.ymin ≤ p.y && p.y ≤ c.ymax

/-- Row semantics of `gpd.sjoin(gdf_eq, gdf_counties, how="left",
predicate="intersects")` as called by `add_county_data` (lines 287-292):
every left record is emitted once per matching county polygon, keeping left
order and right (county) order; a record matching no polygon is emitted
exactly once with an absent county. -/
def sjoin_left_intersects (records : List GeoPoint) (counties : List CountyShape) :
    List (GeoPoint × Option String) :=
  records.flatMap (fun r =>
    match counties.filter (fun c => intersectsPt r c) with
    | [] => [(r, none)]
    | ms => ms.map (fun c => (r, some c.name)))

/-- An HTTP response of the event feed, as far as `fetch_month_data` inspects
it. -/
structure HttpResponse where
  status_code : Nat
  content : String
deriving DecidableEq, Repr

/-- Zero-padding of the month number (`f"{month:02d}"`). -/
def pad2 (n : Nat) : String :=
  if n < 10 then "0" ++ toString n else toString n

/-- `fetch_month_data(year, month)` after the HTTP GET returned `resp`:
status 200 parses the CSV body and reports the count, any other status
returns an empty table and prints the failure diagnostic.  CSV decoding
(`pd.read_csv`) is an external collaborator, passed in as `readCsv`.  The
result is the returned table together with the printed lines. -/
def fetch_month_data (readCsv : String → List RawRecord) (year month : Nat)
    (resp : HttpResponse) : List RawRecord × List String :=
  if resp.status_code == 200 then
    let df := readCsv resp.content
    (df, ["✅ Retrieved " ++ toString df.length ++ " records."])
  else
    ([], ["❌ Failed to fetch data for " ++ toString year ++ "-" ++ pad2 month ++
          ". Status code: " ++ toString resp.status_code])

/-- The combination step of `load_earthquake_data`: monthly tables are
appended only when non-empty, then concatenated. -/
def combineMonths (monthly : List (List RawRecord)) : List RawRecord :=
  (monthly.filter (fun d => !d.isEmpty)).flatten

/-! ### Generic helper lemmas -/

/-- The head of `dropWhile p l` fails `p`. -/
theorem head?_dropWhile_not_sat {α : Type} (p : α → Bool) (l : List α) {c : α}
    (h : (l.dropWhile p).head? = some c) : p c = false := by
  induction l with
  | nil => simp [List.dropWhile] at h
  | cons a t ih =>
    by_cases hpa : p a = true
    · rw [List.dropWhile_cons_of_pos hpa] at h
      exact ih h
    · rw [List.dropWhile_cons_of_neg hpa] at h
      simp only [List.head?_cons, Option.some.injEq] at h
      subst h
      simpa using hpa

/-- A nonempty suffix has the same last element as the whole list. -/
theorem getLast?_of_isSuffix {α : Type} {l₁ l₂ : List α} (h : l₁ <:+ l₂)
    (hne : l₁ ≠ []) : l₂.getLast? = l₁.getLast? := by
  obtain ⟨pre, rfl⟩ := h
  rw [List.getLast?_append]
  cases hl : l₁.getLast? with
  | none => exact absurd (List.getLast?_eq_none_iff.mp hl) hne
  | some c => rfl

/-- Association-list lookup misses every key the query differs from. -/
theorem lookup_eq_none_of_forall_ne {α β : Type} [BEq α] [LawfulBEq α]
    (l : List (α × β)) (k : α) (h : ∀ p ∈ l, k ≠ p.1) : l.lookup k = none := by
  induction l with
  | nil => rfl
  | cons p t ih =>
    have hk : (k == p.1) = false := by
      simpa using h p (List.mem_cons_self p t)
    simp only [List.lookup, hk]
    exact ih (fun q hq => h q (List.mem_cons_of_mem p hq))

/-! ### Lemmas about stripping -/

/-- The first character of a stripped string is not whitespace. -/
theorem stripList_head_not_ws (l : List Char) {c : Char}
    (h : (stripList l).head? = some c) : isWS c = false := by
  unfold stripList at h
  rw [List.head?_reverse] at h
  have hsuf : ((l.dropWhile isWS).reverse.dropWhile isWS) <:+ (l.dropWhile isWS).reverse :=
    List.dropWhile_suffix isWS
  have hne : ((l.dropWhile isWS).reverse.dropWhile isWS) ≠ [] := by
    intro hnil
    rw [hnil] at h
    simp at h
  rw [← getLast?_of_isSuffix hsuf hne, List.getLast?_reverse] at h
  exact head?_dropWhile_not_sat isWS l h

/-- The last character of a stripped string is not whitespace. -/
theorem stripList_getLast_not_ws (l : List Char) {c : Char}
    (h : (stripList l).getLast? = some c) : isWS c = false := by
  unfold stripList at h
  rw [List.getLast?_reverse] at h
  exact head?_dropWhile_not_sat isWS (l.dropWhile isWS).reverse h

/-- A list whose two ends are not whitespace strips to itself. -/
theorem stripList_eq_self (l : List Char)
    (hh : ∀ c, l.head? = some c → isWS c = false)
    (hl : ∀ c, l.getLast? = some c → isWS c = false) : stripList l = l := by
  have h1 : l.dropWhile isWS = l := by
    cases l with
    | nil => rfl
    | cons a t =>
      have := hh a rfl
      rw [List.dropWhile_cons_of_neg (by simp [this])]
  unfold stripList
  rw [h1]
  have h2 : l.reverse.dropWhile isWS = l.reverse := by
    cases hr : l.reverse with
    | nil => rfl
    | cons a t =>
      have ha : l.getLast? = some a := by
        rw [List.getLast?_eq_head?_reverse, hr]
        rfl
      have := hl a ha
      rw [List.dropWhile_cons_of_neg (by simp [this])]
  rw [h2, List.reverse_reverse]

/-- Stripping is idempotent. -/
theorem stripList_idem (l : List Char) : stripList (stripList l) = stripList l := by
  cases hs : stripList l with
  | nil => rfl
  | cons a t =>
    rw [← hs]
    exact stripList_eq_self (stripList l)
      (fun c hc => stripList_head_not_ws l hc)
      (fun c hc => stripList_getLast_not_ws l hc)

/-- Stripping only removes characters. -/
theorem mem_of_mem_stripList {l : List Char} {c : Char} (h : c ∈ stripList l) : c ∈ l := by
  unfold stripList at h
  rw [List.mem_reverse] at h
  have h2 := (List.dropWhile_sublist isWS).mem h
  rw [List.mem_reverse] at h2
  exact (List.dropWhile_sublist isWS).mem h2

/-! ### Claim theorems -/

/-- C1 (counterexample): a point lying exactly on the shared boundary of two
county polygons produces TWO output rows of the left spatial join, one per
intersecting polygon — `add_county_data` applies no first-match policy and
suppresses no duplicates, so county resolution does not assign at most one
county row per input point. -/
theorem sjoin_shared_boundary_two_rows :
    sjoin_left_intersects [{ x := 1, y := 0 }]
        [{ name := "A", xmin := 0, xmax := 1, ymin := 0, ymax := 1 },
         { name := "B", xmin := 1, xmax := 2, ymin := 0, ymax := 1 }] =
      [({ x := 1, y := 0 }, some "A"), ({ x := 1, y := 0 }, some "B")] ∧
    ¬ (sjoin_left_intersects [{ x := 1, y := 0 }]
        [{ name := "A", xmin := 0, xmax := 1, ymin := 0, ymax := 1 },
         { name := "B", xmin := 1, xmax := 2, ymin := 0, ymax := 1 }]).length ≤ 1 := by
  constructor
  · rfl
  · decide

/-- C1 (amended): the left spatial join of `add_county_data` emits, for every
input record, one row per intersecting county polygon — and a single row with
an absent county when no polygon intersects; no duplicate suppression or
first-match policy is applied, so a point on a shared boundary yields one row
for each of the polygons it touches. -/
theorem sjoin_left_row_count (records : List GeoPoint) (counties : List CountyShape) :
    (sjoin_left_intersects records counties).length =
      (records.map (fun r => max (counties.filter (fun c => intersectsPt r c)).length 1)).sum := by
  induction records with
  | nil => rfl
  | cons r rs ih =>
    simp only [sjoin_left_intersects, List.flatMap_cons, List.length_append,
      List.map_cons, List.sum_cons] at *
    rw [ih]
    congr 1
    cases hf : counties.filter (fun c => intersectsPt r c) with
    | nil => simp [hf]
    | cons c cs => simp [hf, Nat.max_eq_left (Nat.succ_le_succ (Nat.zero_le _))]

/-- C2 (counterexample): the string consisting of three spaces has no comma
and no distance/direction token and cannot be decomposed by the grammar, yet
the fallback dictionary carries the ORIGINAL input, not the trimmed input, as
`nearest`: the code returns `{"nearest": txt}`, not `{"nearest":
txt.strip()}`. -/
theorem parse_place_fallback_not_trimmed :
    parseMatch (stripList ("   " : String).data) = none ∧
    (parse_place "   ").nearest = "   " ∧
    stripString "   " = "" ∧
    (parse_place "   ").nearest ≠ stripString "   " := by
  refine ⟨by decide, by decide, by decide, by decide⟩

/-- C2 (amended): for every input string on which the anchored pattern fails
(after stripping), `parse_place` returns the fallback dictionary — `nearest`
equal to the entire ORIGINAL (untrimmed) input and distance, direction and
state all absent — and never an error (it is a total function). -/
theorem parse_place_fallback (txt : String)
    (h : parseMatch (stripList txt.data) = none) :
    parse_place txt = { distance := none, direction := none, nearest := txt, state := none } := by
  simp [parse_place, h]

/-- Witness for `parse_place_fallback` at the concrete input `"  "`. -/
theorem parse_place_fallback_witness :
    parse_place "  " = { distance := none, direction := none, nearest := "  ", state := none } :=
  parse_place_fallback "  " (by decide)

/-- C4 (counterexample): the record with place `"Anchorage, Alaska"` parses
with absent offset distance and direction, so `clean_and_transform_data`
drops it at the post-parse `dropna()` (line 201): no transformed row exists
for it, hence it never reaches region assignment and never carries
`region="West"`. -/
theorem anchorage_dropped_before_region :
    cleanTransformRecord { place := "Anchorage, Alaska" } = none ∧
    (parse_place "Anchorage, Alaska").distance = none := by
  refine ⟨by decide, by decide⟩

/-- C4 (amended): `"Anchorage, Alaska"` parses to distance=None,
direction=None, nearest="Anchorage", state="Alaska", and the region table
maps Alaska to "West"; but the pipeline's transformation stage drops the
record (absent offset distance and direction fail the post-parse `dropna()`),
so it never reaches region assignment. -/
theorem anchorage_parse_region_dropped :
    parse_place "Anchorage, Alaska" =
      { distance := none, direction := none, nearest := "Anchorage", state := some "Alaska" } ∧
    region_of (some "Alaska") = "West" ∧
    cleanTransformRecord { place := "Anchorage, Alaska" } = none := by
  refine ⟨by decide, by decide, by decide⟩

/-- The 50 keys of the reverse state-to-region table are pairwise distinct,
so association-list lookup agrees with the Python dict built by repeated
assignment. -/
theorem state_to_region_keys_nodup : (state_to_region.map Prod.fst).Nodup := by decide

/-- C5: region mapping is total — every state name of the four fixed buckets
is mapped to its bucket, which is one of the four regions; every string in no
bucket, and an absent state, is mapped to `"Non-US"`. -/
theorem region_mapping_total :
    (∀ p ∈ us_regions, ∀ s ∈ p.2,
        region_of (some s) = p.1 ∧ p.1 ∈ ["Northeast", "Midwest", "South", "West"]) ∧
    (∀ s : String, (∀ p ∈ us_regions, s ∉ p.2) → region_of (some s) = "Non-US") ∧
    region_of none = "Non-US" := by
  refine ⟨by decide, ?_, rfl⟩
  intro s h
  have hlook : state_to_region.lookup s = none := by
    apply lookup_eq_none_of_forall_ne
    intro q hq
    simp only [state_to_region, List.mem_flatMap, List.mem_map] at hq
    obtain ⟨p, hp, st, hst, rfl⟩ := hq
    intro hks
    exact h p hp (hks ▸ hst)
  simp [region_of, hlook]

/-- Witness for `region_mapping_total`: a state of a bucket maps to its
region, a non-US state maps to `"Non-US"`. -/
theorem region_mapping_total_witness :
    region_of (some "Ontario") = "Non-US" ∧ region_of none = "Non-US" :=
  ⟨region_mapping_total.2.1 "Ontario" (by decide), region_mapping_total.2.2⟩

/-- C6: state-abbreviation expansion is a pure function — expanding any of
the 50 full state names of the mapping is a no-op, expanding any
already-clean string that is not a key of the mapping (in particular any
unrecognized two-letter code) is a no-op, and an absent state passes through
unchanged. -/
theorem expand_state_name_spec :
    (∀ p ∈ state_mapping, expand_state_name (some p.2) = some p.2) ∧
    (∀ s : String, stripString s = s → state_mapping.lookup s = none →
        expand_state_name (some s) = some s) ∧
    expand_state_name none = none := by
  refine ⟨by decide, ?_, rfl⟩
  intro s h1 h2
  simp [expand_state_name, h1, h2]

/-- Witness for `expand_state_name_spec`: the unrecognized code `"ZZ"` and
the full name `"California"` pass through unchanged; `None` passes
through. -/
theorem expand_state_name_spec_witness :
    expand_state_name (some "ZZ") = some "ZZ" ∧
    expand_state_name (some "California") = some "California" :=
  ⟨expand_state_name_spec.2.1 "ZZ" (by decide) (by decide),
   expand_state_name_spec.1 ("CA", "California") (by decide)⟩

/-- C7: a non-200 status from the event feed yields an empty monthly table
and the printed failure diagnostic — not a fatal error — and appending that
empty table leaves the combined dataset unchanged, so the pipeline continues
with zero records for that period. -/
theorem fetch_month_nonok_empty (readCsv : String → List RawRecord) (year month : Nat)
    (resp : HttpResponse) (h : resp.status_code ≠ 200) :
    (fetch_month_data readCsv year month resp).1 = [] ∧
    (fetch_month_data readCsv year month resp).2 =
      ["❌ Failed to fetch data for " ++ toString year ++ "-" ++ pad2 month ++
       ". Status code: " ++ toString resp.status_code] ∧
    (∀ others : List (List RawRecord),
      combineMonths (others ++ [(fetch_month_data readCsv year month resp).1]) =
        combineMonths others) := by
  have hb : (resp.status_code == 200) = false := by
    simpa using h
  refine ⟨by simp [fetch_month_data, hb], by simp [fetch_month_data, hb], ?_⟩
  intro others
  simp [fetch_month_data, hb, combineMonths, List.filter_append]

/-- Witness for `fetch_month_nonok_empty` at a concrete 404 response. -/
theorem fetch_month_nonok_empty_witness :
    (fetch_month_data (fun _ => []) 2020 1 { status_code := 404, content := "" }).1 = [] ∧
    combineMonths [[], [{ place := "x" }],
        (fetch_month_data (fun _ => []) 2020 1 { status_code := 404, content := "" }).1] =
      combineMonths [[], [{ place := "x" }]] :=
  ⟨(fetch_month_nonok_empty (fun _ => []) 2020 1 _ (by decide)).1,
   (fetch_month_nonok_empty (fun _ => []) 2020 1 _ (by decide)).2.2 [[], [{ place := "x" }]]⟩

/-- C8: a row emitted by `clean_and_transform_data` has every parsed field
present (the emitted `CleanRecord` carries plain, non-null strings in every
column), and a record whose place parses with an absent offset distance,
offset direction or state is dropped at that stage — it produces no
transformed row, so nothing of it reaches the county or region stages. -/
theorem clean_stage_complete_rows (r : RawRecord) :
    (∀ c : CleanRecord, cleanTransformRecord r = some c →
      (parse_place r.place).distance.isSome ∧ (parse_place r.place).direction.isSome ∧
      (parse_place r.place).state.isSome) ∧
    (((parse_place r.place).distance = none ∨ (parse_place r.place).direction = none ∨
      (parse_place r.place).state = none) → cleanTransformRecord r = none) := by
  rcases hd : (parse_place r.place).distance with _ | d <;>
    rcases hdi : (parse_place r.place).direction with _ | di <;>
      rcases hs : (parse_place r.place).state with _ | st <;>
        constructor <;>
          first
          | (intro c hc
             simp only [cleanTransformRecord, hd, hdi, hs] at hc
             simp_all)
          | (intro hnone
             simp only [cleanTransformRecord, hd, hdi, hs]
             try simp_all)

/-- Witness for `clean_stage_complete_rows`: the Anchorage record parses with
absent distance, so the stage drops it. -/
theorem clean_stage_complete_rows_witness :
    cleanTransformRecord { place := "Anchorage, Alaska" } = none :=
  (clean_stage_complete_rows { place := "Anchorage, Alaska" }).2 (by decide)

/-- The seven US states absent from the `us_states` set of
`get_country_continent` are classified `("Unknown", "Unknown")`. -/
theorem missing7_unknown :
    ∀ s ∈ ["Ohio", "Iowa", "Michigan", "Delaware", "Rhode Island", "Vermont", "North Dakota"],
      get_country_continent (some s) = ("Unknown", "Unknown") := by decide

/-- C9: the seven states Ohio, Iowa, Michigan, Delaware, Rhode Island,
Vermont and North Dakota appear in the four-bucket region table (their region
is not `"Non-US"`), yet `get_country_continent` classifies them
`("Unknown", "Unknown")`, and every record whose expanded state is one of
them is dropped by the United-States filter of `clean_and_transform_data`
before region assignment. -/
theorem region_listed_states_filtered_out :
    (∀ s ∈ ["Ohio", "Iowa", "Michigan", "Delaware", "Rhode Island", "Vermont", "North Dakota"],
        get_country_continent (some s) = ("Unknown", "Unknown") ∧
        region_of (some s) ≠ "Non-US") ∧
    (∀ (r : RawRecord) (s : String),
        expand_state_name ((parse_place r.place).state) = some s →
        s ∈ ["Ohio", "Iowa", "Michigan", "Delaware", "Rhode Island", "Vermont", "North Dakota"] →
        cleanTransformRecord r = none) := by
  refine ⟨by decide, ?_⟩
  intro r s hexp hmem
  rcases hd : (parse_place r.place).distance with _ | d <;>
    rcases hdi : (parse_place r.place).direction with _ | di <;>
      rcases hs : (parse_place r.place).state with _ | st0 <;>
        simp only [cleanTransformRecord, hd, hdi, hs]
  rw [hs] at hexp
  rw [hexp]
  have hcc : get_country_continent (some s) = ("Unknown", "Unknown") :=
    missing7_unknown s hmem
  simp [hcc]

/-- Witness for `region_listed_states_filtered_out`: a record expanding to
state Ohio is dropped; Ohio is classified Unknown. -/
theorem region_listed_states_filtered_out_witness :
    cleanTransformRecord { place := "5km N of Columbus, OH" } = none ∧
    get_country_continent (some "Ohio") = ("Unknown", "Unknown") :=
  ⟨region_listed_states_filtered_out.2 { place := "5km N of Columbus, OH" } "Ohio"
      (by decide) (by decide),
   (region_listed_states_filtered_out.1 "Ohio" (by decide)).1⟩

/-- C10: `parse_place` is total on strings — for every input it returns the
four-field dictionary, with `nearest` always a (never-absent) string: either
the pattern fails and the fallback carries the whole original input with the
other three fields absent, or the match's captures are returned with the
mandatory `nearest` capture stripped. -/
theorem parse_place_total_cases (txt : String) :
    (parseMatch (stripList txt.data) = none ∧
      parse_place txt = { distance := none, direction := none, nearest := txt, state := none }) ∨
    (∃ g : MatchGroups, parseMatch (stripList txt.data) = some g ∧
      parse_place txt =
        { distance := g.distance.map (fun l => String.mk l),
          direction := g.direction.map (fun l => String.mk l),
          nearest := String.mk (stripList g.nearest),
          state := g.state.map (fun l => String.mk l) }) := by
  cases h : parseMatch (stripList txt.data) with
  | none => exact Or.inl ⟨rfl, by simp [parse_place, h]⟩
  | some g => exact Or.inr ⟨g, rfl, by simp [parse_place, h]⟩

/-! ### Structure of successful matches (towards claim C3) -/

/-- `takeWhile` walks through a prefix all of whose elements satisfy the
predicate. -/
theorem takeWhile_append_of_all {α : Type} (p : α → Bool) {l1 : List α} (l2 : List α)
    (h : ∀ a ∈ l1, p a = true) : (l1 ++ l2).takeWhile p = l1 ++ l2.takeWhile p := by
  induction l1 with
  | nil => rfl
  | cons a t ih =>
    rw [List.cons_append, List.takeWhile_cons_of_pos (h a (List.mem_cons_self a t)),
      ih (fun b hb => h b (List.mem_cons_of_mem a hb)), List.cons_append]

/-- Dropping the length of the maximal satisfying prefix is `dropWhile`. -/
theorem drop_length_takeWhile {α : Type} (p : α → Bool) (r : List α) :
    r.drop (r.takeWhile p).length = r.dropWhile p := by
  induction r with
  | nil => rfl
  | cons a t ih =>
    by_cases h : p a = true
    · rw [List.takeWhile_cons_of_pos h, List.dropWhile_cons_of_pos h, List.length_cons,
        List.drop_succ_cons, ih]
    · rw [List.takeWhile_cons_of_neg h, List.dropWhile_cons_of_neg h]
      rfl

/-- Every remaining input offered by a distance-group candidate is a suffix of
the input. -/
theorem g1Candidates_rest_suffix (s : List Char) :
    ∀ p ∈ g1Candidates s, p.2 <:+ s := by
  intro p hp
  simp only [g1Candidates] at hp
  split at hp
  · simp only [List.mem_singleton] at hp
    subst hp
    exact List.suffix_refl s
  · split at hp
    case _ c1 c2 r3 heq =>
      split at hp
      · rcases List.mem_append.mp hp with hmem | hmem
        · obtain ⟨i, _, rfl⟩ := List.mem_map.mp hmem
          have h3 : r3 <:+ s := by
            have h4 : r3 <:+ c1 :: c2 :: r3 := ⟨[c1, c2], rfl⟩
            rw [← heq] at h4
            exact (h4.trans (List.drop_suffix _ _)).trans (List.drop_suffix _ _)
          exact (List.drop_suffix _ r3).trans h3
        · simp only [List.mem_singleton] at hmem
          subst hmem
          exact List.suffix_refl s
      · simp only [List.mem_singleton] at hp
        subst hp
        exact List.suffix_refl s
    case _ =>
      simp only [List.mem_singleton] at hp
      subst hp
      exact List.suffix_refl s

/-- Every remaining input offered by a direction-group candidate is a suffix
of the input. -/
theorem g2Candidates_rest_suffix (s : List Char) :
    ∀ p ∈ g2Candidates s, p.2 <:+ s := by
  intro p hp
  simp only [g2Candidates] at hp
  rcases List.mem_append.mp hp with hmem | hmem
  · obtain ⟨i, _, hin⟩ := List.mem_flatMap.mp hmem
    split at hin
    case _ c1 c2 r3 heq =>
      split at hin
      · obtain ⟨j, _, rfl⟩ := List.mem_map.mp hin
        have h3 : r3 <:+ s := by
          have h4 : r3 <:+ c1 :: c2 :: r3 := ⟨[c1, c2], rfl⟩
          rw [← heq] at h4
          exact (h4.trans (List.drop_suffix _ _)).trans (List.drop_suffix _ _)
        exact (List.drop_suffix _ r3).trans h3
      · simp at hin
    case _ =>
      simp at hin
  · simp only [List.mem_singleton] at hmem
    subst hmem
    exact List.suffix_refl s

/-- Anatomy of a successful nearest/state parse whose state group
participated: the nearest capture is the maximal comma-free prefix, it is
nonempty, and the input continues with a comma followed by a remainder on
which the state sub-pattern matches. -/
theorem nearestStateStage_eq_some {r cap : List Char} {stOpt : Option (List Char)}
    (h : nearestStateStage r = some (cap, stOpt)) :
    cap = r.takeWhile (fun c => c != ',') ∧ cap ≠ [] ∧
      ∀ stl, stOpt = some stl → ∃ t, r = cap ++ ',' :: t ∧ stateMatchFn t = some stl := by
  have hdw : r.drop (r.takeWhile (fun c => c != ',')).length =
      r.dropWhile (fun c => c != ',') := drop_length_takeWhile _ r
  simp only [nearestStateStage, hdw] at h
  split at h
  case _ heq =>
    split at h
    · exact absurd h (by simp)
    case _ hpre =>
      simp only [Option.some.injEq, Prod.mk.injEq] at h
      obtain ⟨rfl, rfl⟩ := h
      exact ⟨rfl, by simpa [List.isEmpty_eq_false] using hpre, fun stl hstl => by simp at hstl⟩
  case _ c t heq =>
    split at h
    · exact absurd h (by simp)
    case _ hpre =>
      split at h
      case _ st hsm =>
        simp only [Option.some.injEq, Prod.mk.injEq] at h
        obtain ⟨rfl, rfl⟩ := h
        have hc : c = ',' := by
          have := head?_dropWhile_not_sat (fun c => c != ',') r (by rw [heq]; rfl)
          simpa using this
        refine ⟨rfl, by simpa [List.isEmpty_eq_false] using hpre, fun stl hstl => ?_⟩
        obtain rfl : st = stl := by simpa using hstl
        refine ⟨t, ?_, hsm⟩
        conv_lhs => rw [← List.takeWhile_append_dropWhile (fun c => c != ',') r]
        rw [heq, hc]
      case _ hsm => exact absurd h (by simp)

/-- Anatomy of a successful state sub-pattern match, under the standing fact
that the text after the comma ends in a non-whitespace character (true for
every suffix of the stripped input reaching `$`): the capture is the
remainder after the maximal whitespace run, it is nonempty, all its
characters are in `[A-Za-z ]`, and it neither starts nor ends with
whitespace. -/
theorem stateMatchFn_facts {t stl : List Char} (h : stateMatchFn t = some stl)
    (hlast : ∀ c, t.getLast? = some c → isWS c = false) :
    stl = t.dropWhile isWS ∧ stl ≠ [] ∧ stl.all isStateChar = true ∧
      (∀ c, stl.head? = some c → isWS c = false) ∧
      (∀ c, stl.getLast? = some c → isWS c = false) := by
  simp only [stateMatchFn] at h
  split at h
  · split at h
    case _ hg =>
      have := hlast ' ' hg
      simp [isWS] at this
    case _ => exact absurd h (by simp)
  case _ hue =>
    split at h
    case _ hall =>
      obtain rfl : t.dropWhile isWS = stl := by simpa using h
      have hne : t.dropWhile isWS ≠ [] := by
        simpa [List.isEmpty_eq_false] using hue
      refine ⟨rfl, hne, hall, fun c hc => head?_dropWhile_not_sat isWS t hc, fun c hc => ?_⟩
      apply hlast
      rw [getLast?_of_isSuffix (List.dropWhile_suffix isWS) hne]
      exact hc
    case _ => exact absurd h (by simp)

/-- A successful full match reaches the nearest/state stage on some suffix of
the input, and takes its `nearest` and `state` captures from there. -/
theorem parseMatch_nearest_state {s : List Char} {g : MatchGroups}
    (h : parseMatch s = some g) :
    ∃ r2, r2 <:+ s ∧ nearestStateStage r2 = some (g.nearest, g.state) := by
  simp only [parseMatch] at h
  obtain ⟨p, hp, hfp⟩ := List.exists_of_findSome?_eq_some h
  obtain ⟨q, hq, hfq⟩ := List.exists_of_findSome?_eq_some hfp
  cases hns : nearestStateStage q.2 with
  | none => rw [hns] at hfq; simp at hfq
  | some ns =>
    rw [hns] at hfq
    refine ⟨q.2, (g2Candidates_rest_suffix p.2 q hq).trans (g1Candidates_rest_suffix s p hp), ?_⟩
    rw [hns]
    obtain ⟨n1, st1⟩ := ns
    simp only [Option.map_some'] at hfq
    obtain rfl := Option.some.inj hfq
    rfl

/-- The nearest/state stage on a reconstructed string `n ++ ", " ++ st`
(where `n` is nonempty and comma-free and `st` is a nonempty `[A-Za-z ]`
string not starting with whitespace) captures exactly `n` and `st`. -/
theorem reparse_nearestStateStage (n stl : List Char)
    (hne : n ≠ [])
    (hcomma : ∀ c ∈ n, (c != ',') = true)
    (hst_ne : stl ≠ [])
    (hst_all : stl.all isStateChar = true)
    (hst_head : ∀ c, stl.head? = some c → isWS c = false) :
    nearestStateStage (n ++ ',' :: ' ' :: stl) = some (n, some stl) := by
  have hpre : (n ++ ',' :: ' ' :: stl).takeWhile (fun c => c != ',') = n := by
    rw [takeWhile_append_of_all _ _ hcomma, List.takeWhile_cons_of_neg (by simp)]
    simp
  have hsm : stateMatchFn (' ' :: stl) = some stl := by
    have hu : (' ' :: stl).dropWhile isWS = stl := by
      rw [List.dropWhile_cons_of_pos (by decide)]
      cases stl with
      | nil => rfl
      | cons a t2 => exact List.dropWhile_cons_of_neg (by simp [hst_head a rfl])
    have hsE : stl.isEmpty = false := by simpa [List.isEmpty_eq_false] using hst_ne
    simp only [stateMatchFn, hu, hsE, hst_all]
    rfl
  have hnE : n.isEmpty = false := by simpa [List.isEmpty_eq_false] using hne
  simp only [nearestStateStage, hpre, List.drop_left, hnE, hsm]
  rfl

/-- A reconstructed string `n ++ ", " ++ st` with non-whitespace outer ends
strips to itself. -/
theorem stripList_reconstruction (n stl : List Char)
    (hne : n ≠ []) (hst_ne : stl ≠ [])
    (hh : ∀ c, n.head? = some c → isWS c = false)
    (hl : ∀ c, stl.getLast? = some c → isWS c = false) :
    stripList (n ++ ',' :: ' ' :: stl) = n ++ ',' :: ' ' :: stl := by
  apply stripList_eq_self
  · intro c hc
    rw [List.head?_append_of_ne_nil n hne] at hc
    exact hh c hc
  · intro c hc
    obtain ⟨x, hx⟩ : ∃ x, stl.getLast? = some x := by
      cases hgl : stl.getLast? with
      | none => exact absurd (List.getLast?_eq_none_iff.mp hgl) hst_ne
      | some x => exact ⟨x, rfl⟩
    have h1 : (n ++ ',' :: ' ' :: stl).getLast? = some x := by
      have h2 : (',' :: ' ' :: stl) = [',', ' '] ++ stl := rfl
      rw [List.getLast?_append, h2, List.getLast?_append, hx]
      rfl
    rw [h1] at hc
    obtain rfl := Option.some.inj hc
    exact hl _ hx

/-- C3 (counterexample): the place string `"3km N of 5 km Road, CA"` matches
the full grammar — all four fields participate — with nearest `"5 km Road"`
and state `"CA"`, but re-parsing the reconstructed `"5 km Road, CA"` lets the
distance group re-consume the leading `"5 km"` of the nearest field, yielding
nearest `"Road"`: parsing is not idempotent on reconstructed strings. -/
theorem parse_place_reparse_differs :
    parse_place "3km N of 5 km Road, CA" =
      { distance := some "3km", direction := some "N",
        nearest := "5 km Road", state := some "CA" } ∧
    parse_place ("5 km Road" ++ ", " ++ "CA") =
      { distance := some "5 km", direction := none,
        nearest := "Road", state := some "CA" } ∧
    (parse_place ("5 km Road" ++ ", " ++ "CA")).nearest ≠
      (parse_place "3km N of 5 km Road, CA").nearest := by
  refine ⟨by decide, by decide, by decide⟩

/-- C3 (amended): re-parsing is idempotent for reconstructed strings that do
not re-trigger the optional offset prefixes — if `parse_place` yields a
nonempty nearest `n` and a state `s`, and the reconstructed string
`n ++ ", " ++ s` begins with neither a recognizable distance token
(`\d+\s*km`) nor a recognizable direction token (`[NSEW]{1,3}\s*of`), then
`parse_place (n ++ ", " ++ s)` yields exactly the same nearest `n` and the
same state `s` (and no distance or direction). -/
theorem parse_place_reparse_idempotent (txt n st : String)
    (hn : (parse_place txt).nearest = n)
    (hst : (parse_place txt).state = some st)
    (hne : n ≠ "")
    (hg1 : g1Candidates (n ++ ", " ++ st).data = [(none, (n ++ ", " ++ st).data)])
    (hg2 : g2Candidates (n ++ ", " ++ st).data = [(none, (n ++ ", " ++ st).data)]) :
    parse_place (n ++ ", " ++ st) =
      { distance := none, direction := none, nearest := n, state := some st } := by
  cases hpm : parseMatch (stripList txt.data) with
  | none => simp [parse_place, hpm] at hst
  | some g =>
    simp only [parse_place, hpm] at hn hst
    obtain ⟨stl, hgst, hstl⟩ : ∃ stl, g.state = some stl ∧ String.mk stl = st := by
      cases hgs : g.state with
      | none => rw [hgs] at hst; simp at hst
      | some stl =>
        rw [hgs] at hst
        simp only [Option.map_some', Option.some.injEq] at hst
        exact ⟨stl, rfl, hst⟩
    obtain ⟨r2, hr2suf, hr2⟩ := parseMatch_nearest_state hpm
    rw [hgst] at hr2
    obtain ⟨hcap, hcapne, hstate⟩ := nearestStateStage_eq_some hr2
    obtain ⟨t, hrt, hsmt⟩ := hstate stl rfl
    have htlast : ∀ c, t.getLast? = some c → isWS c = false := by
      intro c hc
      have htne : t ≠ [] := by
        intro h0
        rw [h0] at hc
        simp at hc
      have htsuf : t <:+ stripList txt.data := by
        have h1 : t <:+ r2 := ⟨g.nearest ++ [','], by rw [hrt]; simp⟩
        exact h1.trans hr2suf
      have h2 := getLast?_of_isSuffix htsuf htne
      exact stripList_getLast_not_ws txt.data (by rw [h2]; exact hc)
    obtain ⟨-, hstl_ne, hstl_all, hstl_head, hstl_last⟩ := stateMatchFn_facts hsmt htlast
    have hndata : n.data = stripList g.nearest := by rw [← hn]
    have hndne : n.data ≠ [] := by
      intro h0
      apply hne
      obtain ⟨l⟩ := n
      exact congrArg String.mk h0
    have hncomma : ∀ c ∈ n.data, (c != ',') = true := by
      intro c hc
      rw [hndata] at hc
      have hc2 := mem_of_mem_stripList hc
      rw [hcap] at hc2
      exact @List.mem_takeWhile_imp Char (fun x => x != ',') r2 c hc2
    have hnhead : ∀ c, n.data.head? = some c → isWS c = false := by
      intro c hc
      rw [hndata] at hc
      exact stripList_head_not_ws g.nearest hc
    have hnstrip : stripList n.data = n.data := by
      rw [hndata]
      exact stripList_idem g.nearest
    have hstdata : st.data = stl := by rw [← hstl]
    have hrecon : (n ++ ", " ++ st).data = n.data ++ ',' :: ' ' :: st.data := by
      rw [String.data_append, String.data_append]
      simp [List.append_assoc]
    have hns2 : nearestStateStage ((n ++ ", " ++ st).data) = some (n.data, some st.data) := by
      rw [hrecon, hstdata]
      exact reparse_nearestStateStage n.data stl hndne hncomma hstl_ne hstl_all hstl_head
    have hstrip2 : stripList ((n ++ ", " ++ st).data) = (n ++ ", " ++ st).data := by
      rw [hrecon, hstdata]
      exact stripList_reconstruction n.data stl hndne hstl_ne hnhead hstl_last
    have hpm2 : parseMatch ((n ++ ", " ++ st).data) =
        some { distance := none, direction := none, nearest := n.data, state := some st.data } := by
      simp only [parseMatch, hg1, hg2, List.findSome?_cons, List.findSome?_nil, hns2,
        Option.map_some']
    simp only [parse_place, hstrip2, hpm2, Option.map_some', Option.map_none']
    have hmkn : String.mk n.data = n := rfl
    have hmkst : String.mk st.data = st := rfl
    rw [hnstrip, hmkn, hmkst]

/-- Witness for `parse_place_reparse_idempotent`: the spec's scenario-1 place
string, whose nearest/state reconstruction `"Springfield" ++ ", " ++ "IL"`
re-parses to the same nearest and state. -/
theorem parse_place_reparse_idempotent_witness :
    parse_place ("Springfield" ++ ", " ++ "IL") =
      { distance := none, direction := none, nearest := "Springfield", state := some "IL" } :=
  parse_place_reparse_idempotent "3km ENE of Springfield, IL" "Springfield" "IL"
    (by decide) (by decide) (by decide) (by decide) (by decide)
